import Mathlib

/-!
Verification development for the `recsys-project` repository.

The development shallowly embeds the recommendation generation and
persistence pipeline (`src/recsys/generate_recommendations.py`,
`src/recsys/random_model.py`, `src/recsys/item_similarity.py`) and the
read API (`src/api/main.py`).  SQLite tables become Lean lists of rows,
machine floats used only for score comparisons become rationals, and
fallible Python code returns `Except`.
-/

namespace Recsys

/-! ## Target keys

Mirrors the Python f-strings `f"user_id#{user_id}"` / `f"item_id#{item_id}"`
used in `random_model.py`, `item_similarity.py` and `api/main.py`. -/

def userKey (uid : Int) : String := "user_id#" ++ toString uid

def itemKey (iid : Int) : String := "item_id#" ++ toString iid

/-! ## Serialized item lists

Modelled from the spec: the repository serializes item lists with
`json.dumps` (in `_serialize_items`) and parses them with `json.loads`
(in `api/main.py`); both live in the Python standard library, outside
`src/`.  The spec describes this as a self-describing structured text
form, parsed back on read, where a parse failure is a distinct
corrupted-storage condition.  We model the exact `json.dumps` output for
a list of integers (`"[1, 2]"`) and a parser for that grammar. -/

def serialize_items (items : List Int) : String :=
  "[" ++ String.intercalate ", " (items.map toString) ++ "]"

def isWsChar (c : Char) : Bool :=
  c == ' ' || c == '\t' || c == '\n' || c == '\r'

def trimChars (cs : List Char) : List Char :=
  ((cs.dropWhile isWsChar).reverse.dropWhile isWsChar).reverse

def splitCommaAux : List Char → List Char → List (List Char)
  | [], acc => [acc.reverse]
  | c :: rest, acc =>
    if c == ',' then acc.reverse :: splitCommaAux rest []
    else splitCommaAux rest (c :: acc)

def parseNatAux : List Char → Nat → Option Nat
  | [], acc => some acc
  | c :: rest, acc =>
    if c.isDigit then parseNatAux rest (acc * 10 + (c.toNat - 48))
    else none

def parseNatChars : List Char → Option Nat
  | [] => none
  | cs => parseNatAux cs 0

def parseIntChars (cs : List Char) : Option Int :=
  match trimChars cs with
  | '-' :: rest => (parseNatChars rest).map (fun n => -(n : Int))
  | other => (parseNatChars other).map (fun n => (n : Int))

def parseItemsChars (cs : List Char) : Option (List Int) :=
  let t := trimChars cs
  match t with
  | '[' :: rest =>
    match rest.getLast? with
    | some ']' =>
      let inner := rest.dropLast
      if trimChars inner = [] then some []
      else (splitCommaAux inner []).mapM parseIntChars
    | _ => none
  | _ => none

def parseItems (s : String) : Option (List Int) :=
  parseItemsChars s.data

/-! ## The recommendations table

`RECOMMENDATIONS_TABLE_SQL` declares columns `target_key`, `model`,
`items` (serialized text) and `generated_at` (timestamp defaulting to
the write time), with `UNIQUE(target_key, model)`.  A `RecRow` is one
stored row; the store is the rowid-ordered list of rows.  Timestamps are
abstract naturals supplied by the caller (`CURRENT_TIMESTAMP`). -/

structure RecRow where
  target_key : String
  model : String
  items : String
  generated_at : Nat
deriving DecidableEq, Repr

abbrev Store := List RecRow

def rowKeyMatch (tk m : String) (q : RecRow) : Bool :=
  q.target_key == tk && q.model == m

/-- The `INSERT ... ON CONFLICT(target_key, model) DO UPDATE` statement of
`_persist_recommendations`: if a row with the same (target_key, model)
exists, replace its `items` and refresh `generated_at`; otherwise append
a fresh row whose `generated_at` defaults to the current time. -/
def upsertRow (now : Nat) (store : Store) (tk m its : String) : Store :=
  if store.any (rowKeyMatch tk m) then
    store.map (fun q =>
      if rowKeyMatch tk m q then
        { q with items := its, generated_at := now }
      else q)
  else
    store ++ [{ target_key := tk, model := m, items := its, generated_at := now }]

/-- `_persist_recommendations`: serialize each mapping entry to a row and
run the upsert for every row (the `executemany` call), returning the new
store and the row count. An empty mapping writes nothing and reports 0. -/
def persist_recommendations (now : Nat) (store : Store) (model_name : String)
    (recommendations : List (String × List Int)) : Store × Nat :=
  let rows := recommendations.map (fun p => (p.1, model_name, serialize_items p.2))
  if rows.isEmpty then (store, 0)
  else (rows.foldl (fun st r => upsertRow now st r.1 r.2.1 r.2.2) store, rows.length)

/-! ## Model registry and runner (`generate_recommendations.py`) -/

inductive RunError where
  | missingDatabase
  | missingDataDir
  | unknownModel (name : String)
  | generationFailed (name : String)
deriving DecidableEq, Repr

/-- A registry entry: the generation function of a model, taking `top_n`
and the optional seed.  Generation may fail (`Except`), modelling a
Python exception raised while computing recommendations. -/
abbrev GenFun := Nat → Option Int → Except String (List (String × List Int))

/-- The sequential loop body of `run_models`: for each requested name,
look the registry entry up (an unknown name raises), invoke the
generation function, and stage its rows through
`persist_recommendations` inside the open transaction.  The returned
trace records which generation functions were actually invoked, in
order, before the loop finished or raised. -/
def run_models_loop (registry : String → Option GenFun) (top_n : Nat)
    (seed : Option Int) (now : Nat) :
    List String → Store → List String × Except RunError (Store × List (String × Nat))
  | [], store => ([], .ok (store, []))
  | name :: rest, store =>
    match registry name with
    | none => ([], .error (.unknownModel name))
    | some gen =>
      match gen top_n seed with
      | .error _ => ([name], .error (.generationFailed name))
      | .ok recommendations =>
        let staged := persist_recommendations now store name recommendations
        let tail := run_models_loop registry top_n seed now rest staged.1
        (name :: tail.1,
          match tail.2 with
          | .ok (st, counts) => .ok (st, (name, staged.2) :: counts)
          | .error e => .error e)

/-- `run_models`: validate that the database file and the data directory
exist, then run the loop.  The first component is the trace of invoked
generation functions; the second is the outcome of the invocation. -/
def run_models (dbExists dataDirExists : Bool)
    (registry : String → Option GenFun) (top_n : Nat) (seed : Option Int)
    (now : Nat) (models : List String) (store : Store) :
    List String × Except RunError (Store × List (String × Nat)) :=
  if !dbExists then ([], .error .missingDatabase)
  else if !dataDirExists then ([], .error .missingDataDir)
  else run_models_loop registry top_n seed now models store

/-- The store visible after the invocation: the `with sqlite3.connect(...)`
context manager commits the staged rows only when the block finishes
without an exception, and rolls everything back otherwise. -/
def run_models_post_state (dbExists dataDirExists : Bool)
    (registry : String → Option GenFun) (top_n : Nat) (seed : Option Int)
    (now : Nat) (models : List String) (store : Store) : Store :=
  match (run_models dbExists dataDirExists registry top_n seed now models store).2 with
  | .ok (st, _) => st
  | .error _ => store

/-! ## Random baseline (`random_model.py`)

Modelled from the spec: the source seeds `random.Random(seed)` and draws
with `rng.sample(pool, k)`, both from the Python standard library
(outside `src/`).  The spec describes this as a seeded pseudo-random
generator, with sampling of `k` items without replacement, where the
same seed, pools and `top_n` reproduce the output exactly.  We model the
generator as a deterministic state machine (a 64-bit linear-congruential
step standing in for the Mersenne Twister) and sampling as a seeded
selection-without-replacement pass over the pool. -/

def lcgNext (s : Nat) : Nat :=
  (6364136223846793005 * s + 1442695040888963407) % (2 ^ 64)

def mkRngState (seed : Int) : Nat :=
  lcgNext (seed.natAbs % (2 ^ 64))

/-- Draw `k` elements without replacement: rotate the pool by a
state-derived offset, take the front element, and continue on the rest
with the advanced state. -/
def sampleAux : Nat → List Int → Nat → List Int × Nat
  | 0, _, s => ([], s)
  | k + 1, pool, s =>
    match pool.rotate (s % pool.length) with
    | [] => ([], s)
    | x :: rest =>
      let p := sampleAux k rest (lcgNext s)
      (x :: p.1, p.2)

def sample (s : Nat) (pool : List Int) (k : Nat) : List Int × Nat :=
  sampleAux k pool s

/-- `RandomRecommender`: identifier pools plus the generator state. -/
structure RandomRecommender where
  user_ids : List Int
  item_ids : List Int
  rng : Nat
deriving DecidableEq, Repr

/-- The per-user loop of `RandomRecommender.recommend`: each user gets a
sample of `limit` items from the full pool, threading the generator. -/
def recommendUsers (item_pool : List Int) (limit : Nat) :
    List Int → Nat → List (String × List Int) × Nat
  | [], s => ([], s)
  | u :: us, s =>
    let sel := sample s item_pool limit
    let rest := recommendUsers item_pool limit us sel.2
    ((userKey u, sel.1) :: rest.1, rest.2)

/-- The per-item loop of `RandomRecommender.recommend`: a pool of size 1
yields an empty list; otherwise sample `min top_n |candidates|` from the
pool with the item itself filtered out (no draw when the size is 0). -/
def recommendItems (item_pool : List Int) (top_n : Nat) :
    List Int → Nat → List (String × List Int) × Nat
  | [], s => ([], s)
  | i :: rest, s =>
    if item_pool.length = 1 then
      let tail := recommendItems item_pool top_n rest s
      ((itemKey i, []) :: tail.1, tail.2)
    else
      let candidates := item_pool.filter (fun c => c ≠ i)
      let size := min top_n candidates.length
      let sel := if size = 0 then (([] : List Int), s) else sample s candidates size
      let tail := recommendItems item_pool top_n rest sel.2
      ((itemKey i, sel.1) :: tail.1, tail.2)

/-- `RandomRecommender.recommend`: reject `top_n < 1`, then produce the
user entries followed by the item entries (Python dict insertion
order). -/
def RandomRecommender.recommend (r : RandomRecommender) (top_n : Nat) :
    Except String (List (String × List Int)) :=
  if top_n < 1 then .error "top_n must be at least 1"
  else
    let item_pool := r.item_ids
    let limit := min top_n item_pool.length
    let us := recommendUsers item_pool limit r.user_ids r.rng
    let its := recommendItems item_pool top_n r.item_ids us.2
    .ok (us.1 ++ its.1)

/-- `generate_random_recommendations` with the CSV-loaded identifier
pools passed explicitly (the CSV load itself is out-of-scope ETL). -/
def generate_random_recommendations (user_ids item_ids : List Int)
    (top_n : Nat) (seed : Int) : Except String (List (String × List Int)) :=
  RandomRecommender.recommend
    { user_ids := user_ids, item_ids := item_ids, rng := mkRngState seed } top_n

/-! ## Item similarity (`item_similarity.py`)

Scores are rationals standing in for the float32 cosine similarities;
only comparisons between scores matter to the selection logic. -/

/-- The shortlist selection of `_top_n_similar`:
`np.argpartition(scores, -c)[-c:]` reordered descending by score — the
`c` highest-scoring column indices in descending score order (tie-break
unspecified in the source; the model sorts all indices by descending
score and keeps the first `c`). -/
def topIndices (scores : List ℚ) (c : Nat) : List Nat :=
  (List.insertionSort (fun i j => scores.getD j 0 ≤ scores.getD i 0)
    (List.range scores.length)).take c

/-- The shortlist walk of `_top_n_similar`: skip the row's own item id,
append every other candidate, and stop once `top_n` are accepted. -/
def walkShortlist (item_ids : List Int) (self_id : Int) (top_n : Nat)
    (acc : List Int) : List Nat → List Int
  | [] => acc.reverse
  | idx :: rest =>
    if item_ids.getD idx 0 = self_id then
      walkShortlist item_ids self_id top_n acc rest
    else if top_n ≤ acc.length + 1 then (item_ids.getD idx 0 :: acc).reverse
    else walkShortlist item_ids self_id top_n (item_ids.getD idx 0 :: acc) rest

/-- One row of `_top_n_similar`: a singleton (or empty) item set yields
an empty list, otherwise walk the `min (top_n + 1) num_items` shortlist. -/
def top_n_similar_row (scores : List ℚ) (item_ids : List Int) (idx : Nat)
    (top_n : Nat) : List Int :=
  if item_ids.length ≤ 1 then []
  else walkShortlist item_ids (item_ids.getD idx 0) top_n []
    (topIndices scores (min (top_n + 1) item_ids.length))

/-- `_top_n_similar`: check the matrix shape, then build one keyed entry
per item from its row. -/
def top_n_similar (similarity_matrix : List (List ℚ)) (item_ids : List Int)
    (top_n : Nat) : Except String (List (String × List Int)) :=
  if similarity_matrix.length == item_ids.length
      && similarity_matrix.all (fun row => row.length == item_ids.length) then
    .ok ((List.range item_ids.length).map (fun idx =>
      (itemKey (item_ids.getD idx 0),
        top_n_similar_row (similarity_matrix.getD idx []) item_ids idx top_n)))
  else .error "Similarity matrix shape mismatch"

def dotQ (u v : List ℚ) : ℚ :=
  (List.zipWith (fun a b => a * b) u v).sum

/-- `_build_similarity_matrix`: `embeddings @ embeddings.T`. -/
def build_similarity_matrix (embeddings : List (List ℚ)) : List (List ℚ) :=
  embeddings.map (fun u => embeddings.map (fun v => dotQ u v))

/-- `generate_item_similarity_recommendations`: the embedding provider
(SentenceTransformer) and the text cleaner (NLTK) are external
capabilities passed as functions; the loaded item records are passed
explicitly.  The function deletes its `seed` argument without reading
it, rejects `top_n < 1`, embeds the cleaned texts, builds the similarity
matrix and extracts the top-N neighbours. -/
def generate_item_similarity_recommendations
    (provider : String → Nat → List String → List (List ℚ))
    (cleaner : String → String) (records : List (Int × String))
    (top_n : Nat) (model_name : String) (batch_size : Nat)
    (seed : Option Int) : Except String (List (String × List Int)) :=
  let _ := seed
  if top_n < 1 then .error "top_n must be at least 1"
  else
    let cleaned := records.map (fun r => cleaner r.2)
    let embeddings := provider model_name batch_size cleaned
    let similarity := build_similarity_matrix embeddings
    let item_ids := records.map Prod.fst
    top_n_similar similarity item_ids top_n

/-! ## Read API (`api/main.py`) -/

inductive ApiError where
  | invalidRequest (detail : String)
  | notFound (detail : String)
  | noRecommendations
  | corruptedStorage
deriving DecidableEq, Repr

/-- The HTTP status carried by each `HTTPException` raise site. -/
def ApiError.status : ApiError → Nat
  | .invalidRequest _ => 400
  | .notFound _ => 404
  | .noRecommendations => 404
  | .corruptedStorage => 500

structure ApiEntry where
  model : String
  items : List Int
  generated_at : Nat
deriving DecidableEq, Repr

structure ApiResponse where
  target_type : String
  target_id : Int
  target_key : String
  model : Option String
  limit : Nat
  recommendations : List ApiEntry
deriving DecidableEq, Repr

/-- The SQL `WHERE` clause of `list_recommendations`: rows of the target
key, keeping only the filtered model when a filter is given. -/
def row_matches (tk : String) (modelFilter : Option String) (q : RecRow) : Bool :=
  q.target_key == tk &&
    (match modelFilter with
     | none => true
     | some m => q.model == m)

/-- Lexicographic comparison of character sequences by code point — the
BINARY collation SQLite applies to `ORDER BY model` on a TEXT column. -/
def charListLe : List Char → List Char → Bool
  | [], _ => true
  | _ :: _, [] => false
  | c :: cs, d :: ds =>
    if c.toNat < d.toNat then true
    else if d.toNat < c.toNat then false
    else charListLe cs ds

def stringLe (a b : String) : Bool := charListLe a.data b.data

/-- `ORDER BY model`: sort the matched rows ascending by model name. -/
def sortRowsByModel (rows : List RecRow) : List RecRow :=
  List.insertionSort (fun a b => stringLe a.model b.model = true) rows

/-- The result-building loop of `list_recommendations`: parse each
stored item list (`json.loads`), failing on the first corrupted row, and
truncate to the first `limit` entries. -/
def build_entries (limit : Nat) : List RecRow → Except ApiError (List ApiEntry)
  | [] => .ok []
  | q :: rest =>
    match parseItems q.items with
    | none => .error .corruptedStorage
    | some l =>
      match build_entries limit rest with
      | .error e => .error e
      | .ok es =>
        .ok ({ model := q.model, items := l.take limit,
               generated_at := q.generated_at } :: es)

/-- The tail of `list_recommendations` once the target is resolved:
query and order the matching rows, report `NoRecommendations` on an
empty result set, and assemble the response. -/
def serveTarget (store : Store) (modelFilter : Option String) (limit : Nat)
    (targetType : String) (targetId : Int) (tk : String) :
    Except ApiError ApiResponse :=
  if sortRowsByModel (store.filter (row_matches tk modelFilter)) = [] then
    .error .noRecommendations
  else
    match build_entries limit (sortRowsByModel (store.filter (row_matches tk modelFilter))) with
    | .error e => .error e
    | .ok entries =>
      .ok { target_type := targetType, target_id := targetId, target_key := tk,
            model := modelFilter, limit := limit, recommendations := entries }

/-- `list_recommendations`: reject when neither id is supplied; resolve
the target (`_ensure_exists` raises 404 when the id is absent from the
entity table), user id first, item id otherwise; then serve. -/
def list_recommendations (users items_table : List Int) (store : Store)
    (user_id item_id : Option Int) (modelFilter : Option String)
    (limit : Nat) : Except ApiError ApiResponse :=
  if user_id.isNone && item_id.isNone then
    .error (.invalidRequest "Provide either user_id or item_id")
  else
    match user_id with
    | some uid =>
      if uid ∈ users then serveTarget store modelFilter limit "user" uid (userKey uid)
      else .error (.notFound "User not found")
    | none =>
      match item_id with
      | some iid =>
        if iid ∈ items_table then
          serveTarget store modelFilter limit "item" iid (itemKey iid)
        else .error (.notFound "Item not found")
      | none => .error (.invalidRequest "Unable to resolve recommendation target")

/-! ## Properties of the sampling model -/

theorem sampleAux_length (k : Nat) (pool : List Int) (s : Nat) :
    (sampleAux k pool s).1.length = min k pool.length := by
  induction k generalizing pool s with
  | zero => simp [sampleAux]
  | succ k ih =>
    cases h : pool.rotate (s % pool.length) with
    | nil =>
      have hlen : pool.length = 0 := by
        have hr := List.length_rotate pool (s % pool.length)
        rw [h] at hr
        simpa using hr.symm
      have hpool : pool = [] := List.length_eq_zero.mp hlen
      subst hpool
      simp [sampleAux]
    | cons x rest =>
      have hlen : rest.length + 1 = pool.length := by
        have hr := List.length_rotate pool (s % pool.length)
        rw [h] at hr
        simpa using hr
      simp only [sampleAux, h, List.length_cons]
      rw [ih, ← hlen, Nat.succ_min_succ]

theorem sampleAux_subset (k : Nat) (pool : List Int) (s : Nat) :
    ∀ x ∈ (sampleAux k pool s).1, x ∈ pool := by
  induction k generalizing pool s with
  | zero => simp [sampleAux]
  | succ k ih =>
    cases h : pool.rotate (s % pool.length) with
    | nil => simp [sampleAux, h]
    | cons y rest =>
      intro x hx
      have hrot : ∀ z, z ∈ y :: rest → z ∈ pool := by
        intro z hz
        exact (List.rotate_perm pool (s % pool.length)).mem_iff.mp (h ▸ hz)
      simp only [sampleAux, h, List.mem_cons] at hx
      cases hx with
      | inl he => exact hrot x (he ▸ List.mem_cons_self y rest)
      | inr hr =>
        exact hrot x (List.mem_cons_of_mem y (ih rest (lcgNext s) x hr))

theorem sampleAux_nodup (k : Nat) (pool : List Int) (s : Nat)
    (hp : pool.Nodup) : (sampleAux k pool s).1.Nodup := by
  induction k generalizing pool s with
  | zero => simp [sampleAux]
  | succ k ih =>
    cases h : pool.rotate (s % pool.length) with
    | nil => simp [sampleAux, h]
    | cons y rest =>
      have hrn : (y :: rest).Nodup := by
        have hr := (List.rotate_perm pool (s % pool.length)).nodup_iff.mpr hp
        rw [h] at hr
        exact hr
      have hyr : y ∉ rest := (List.nodup_cons.mp hrn).1
      have hrest : rest.Nodup := (List.nodup_cons.mp hrn).2
      simp only [sampleAux, h]
      refine List.nodup_cons.mpr ⟨?_, ih rest (lcgNext s) hrest⟩
      intro hy
      exact hyr (sampleAux_subset k rest (lcgNext s) y hy)

/-! ## The random engine satisfies its output contract -/

/-- The output contract of the random baseline: one entry per user (a
`min top_n |item_ids|`-element duplicate-free sub-collection of the item
pool), followed by one entry per item (a `min top_n (|item_ids| - 1)`
element duplicate-free sub-collection of the pool excluding the item
itself). -/
def RandomOutputSpec (r : RandomRecommender) (top_n : Nat) : Prop :=
  ∃ userPart itemPart,
    r.recommend top_n = .ok (userPart ++ itemPart) ∧
    List.Forall₂ (fun u p => p.1 = userKey u ∧
      p.2.length = min top_n r.item_ids.length ∧ p.2.Nodup ∧
      ∀ x ∈ p.2, x ∈ r.item_ids) r.user_ids userPart ∧
    List.Forall₂ (fun i p => p.1 = itemKey i ∧
      p.2.length = min top_n (r.item_ids.length - 1) ∧ p.2.Nodup ∧
      ∀ x ∈ p.2, x ∈ r.item_ids ∧ x ≠ i) r.item_ids itemPart

theorem recommendUsers_spec (item_pool : List Int) (limit : Nat)
    (hp : item_pool.Nodup) :
    ∀ (us : List Int) (s : Nat),
      List.Forall₂ (fun u p => p.1 = userKey u ∧
        p.2.length = min limit item_pool.length ∧ p.2.Nodup ∧
        ∀ x ∈ p.2, x ∈ item_pool) us (recommendUsers item_pool limit us s).1 := by
  intro us
  induction us with
  | nil => intro s; simp [recommendUsers]
  | cons u us ih =>
    intro s
    simp only [recommendUsers]
    refine List.Forall₂.cons ⟨rfl, ?_, ?_, ?_⟩ (ih _)
    · exact sampleAux_length limit item_pool s
    · exact sampleAux_nodup limit item_pool s hp
    · exact sampleAux_subset limit item_pool s

theorem filter_ne_length (item_pool : List Int) (i : Int)
    (hp : item_pool.Nodup) (hm : i ∈ item_pool) :
    (item_pool.filter (fun c => c ≠ i)).length = item_pool.length - 1 := by
  have he : item_pool.filter (fun c => c ≠ i) = item_pool.erase i := by
    rw [hp.erase_eq_filter]
    apply List.filter_congr
    intro x _
    simp only [bne, decide_not]
    rfl
  rw [he]
  have := List.length_erase_add_one hm
  omega

theorem recommendItems_spec (item_pool : List Int) (top_n : Nat)
    (hp : item_pool.Nodup) :
    ∀ (todo : List Int) (s : Nat), (∀ i ∈ todo, i ∈ item_pool) →
      List.Forall₂ (fun i p => p.1 = itemKey i ∧
        p.2.length = min top_n (item_pool.length - 1) ∧ p.2.Nodup ∧
        ∀ x ∈ p.2, x ∈ item_pool ∧ x ≠ i)
        todo (recommendItems item_pool top_n todo s).1 := by
  intro todo
  induction todo with
  | nil => intro s _; simp [recommendItems]
  | cons i rest ih =>
    intro s hmem
    have hi : i ∈ item_pool := hmem i (List.mem_cons_self i rest)
    have hrest : ∀ j ∈ rest, j ∈ item_pool := fun j hj =>
      hmem j (List.mem_cons_of_mem i hj)
    by_cases hone : item_pool.length = 1
    · simp only [recommendItems, if_pos hone]
      refine List.Forall₂.cons ⟨rfl, ?_, ?_, ?_⟩ (ih _ hrest)
      · simp [hone]
      · simp
      · simp
    · simp only [recommendItems, if_neg hone]
      have hlen : (item_pool.filter (fun c => c ≠ i)).length
          = item_pool.length - 1 := filter_ne_length item_pool i hp hi
      have hcn : (item_pool.filter (fun c => c ≠ i)).Nodup := hp.filter _
      have hsub : ∀ x ∈ item_pool.filter (fun c => c ≠ i),
          x ∈ item_pool ∧ x ≠ i := by
        intro x hx
        have hx' := List.mem_filter.mp hx
        exact ⟨hx'.1, by simpa using hx'.2⟩
      by_cases hz : min top_n (item_pool.filter (fun c => c ≠ i)).length = 0
      · simp only [hz, if_pos rfl, reduceIte]
        refine List.Forall₂.cons ⟨rfl, ?_, ?_, ?_⟩ (ih _ hrest)
        · simp only [List.length_nil]
          rw [hlen] at hz
          omega
        · simp
        · simp
      · simp only [if_neg hz]
        refine List.Forall₂.cons ⟨rfl, ?_, ?_, ?_⟩ (ih _ hrest)
        · simp only [sample]
          rw [sampleAux_length, hlen]
          omega
        · exact sampleAux_nodup _ _ _ hcn
        · intro x hx
          exact hsub x (sampleAux_subset _ _ _ x hx)

/-- **C6.** For non-empty pools, a duplicate-free item pool and
`top_n ≥ 1`, the random engine gives every user exactly
`min top_n |item_ids|` distinct items from the item pool, and every item
exactly `min top_n (|item_ids| - 1)` distinct items from the pool
excluding itself (so a single-item pool yields an empty list). -/
theorem random_recommend_output_contract (r : RandomRecommender) (top_n : Nat)
    (htop : 1 ≤ top_n) (hu : r.user_ids ≠ []) (hi : r.item_ids ≠ [])
    (hnd : r.item_ids.Nodup) : RandomOutputSpec r top_n := by
  have hlt : ¬ (top_n < 1) := by omega
  refine ⟨(recommendUsers r.item_ids (min top_n r.item_ids.length) r.user_ids r.rng).1,
    (recommendItems r.item_ids top_n r.item_ids
      (recommendUsers r.item_ids (min top_n r.item_ids.length) r.user_ids r.rng).2).1,
    ?_, ?_, ?_⟩
  · simp [RandomRecommender.recommend, hlt]
  · have h := recommendUsers_spec r.item_ids (min top_n r.item_ids.length) hnd
      r.user_ids r.rng
    refine h.imp ?_
    intro u p hp
    refine ⟨hp.1, ?_, hp.2.2.1, hp.2.2.2⟩
    rw [hp.2.1]
    omega
  · exact recommendItems_spec r.item_ids top_n hnd r.item_ids _ (fun _ h => h)

/-- Witness for C6 at `user_ids = [10, 20]`, `item_ids = [100, 101, 102]`,
`seed`-state from seed 7, `top_n = 10`. -/
theorem random_recommend_output_contract_witness :
    (1 ≤ 10 ∧ ([10, 20] : List Int) ≠ [] ∧ ([100, 101, 102] : List Int) ≠ [] ∧
      ([100, 101, 102] : List Int).Nodup) ∧
    RandomOutputSpec
      { user_ids := [10, 20], item_ids := [100, 101, 102], rng := mkRngState 7 } 10 :=
  ⟨⟨by decide, by decide, by decide, by decide⟩,
    random_recommend_output_contract
      { user_ids := [10, 20], item_ids := [100, 101, 102], rng := mkRngState 7 }
      10 (by decide) (by decide) (by decide) (by decide)⟩

/-- **C5.** Two runs of the random baseline with the same seed, the same
identifier pools and the same `top_n` produce identical output. -/
theorem random_recommend_deterministic (u1 u2 i1 i2 : List Int)
    (t1 t2 : Nat) (s1 s2 : Int) (hu : u1 = u2) (hi : i1 = i2)
    (ht : t1 = t2) (hs : s1 = s2) :
    generate_random_recommendations u1 i1 t1 s1
      = generate_random_recommendations u2 i2 t2 s2 := by
  rw [hu, hi, ht, hs]

/-- Witness for C5 at concrete pools, seed 7 and `top_n = 10`. -/
theorem random_recommend_deterministic_witness :
    generate_random_recommendations [10, 20] [100, 101, 102] 10 7
      = generate_random_recommendations [10, 20] [100, 101, 102] 10 7 :=
  random_recommend_deterministic [10, 20] [10, 20] [100, 101, 102] [100, 101, 102]
    10 10 7 7 rfl rfl rfl rfl

/-! ## Transactional batch semantics of the runner -/

/-- A two-model registry used to exercise the runner on concrete inputs:
`"random"` generates successfully, `"boom"` raises during generation. -/
def exampleRegistry : String → Option GenFun :=
  fun name =>
    if name == "random" then some (fun _ _ => .ok [("user_id#1", [5, 6])])
    else if name == "boom" then some (fun _ _ => .error "embedding failure")
    else none

def exampleStore : Store :=
  [{ target_key := "user_id#9", model := "random", items := "[3]", generated_at := 1 }]

/-- **C2.** If any step of a runner invocation raises, the store visible
after the invocation is the pre-invocation store: the single shared
transaction rolls back everything, including rows staged by models that
completed earlier in the same invocation. -/
theorem run_models_rollback_on_error (dbE dataE : Bool)
    (registry : String → Option GenFun) (top_n : Nat) (seed : Option Int)
    (now : Nat) (models : List String) (store : Store) (e : RunError)
    (h : (run_models dbE dataE registry top_n seed now models store).2 = .error e) :
    run_models_post_state dbE dataE registry top_n seed now models store = store := by
  unfold run_models_post_state
  rw [h]

/-- Witness for C2: `"random"` succeeds first, then `"boom"` raises; the
post-invocation store still equals the pre-invocation store. -/
theorem run_models_rollback_on_error_witness :
    ((run_models true true exampleRegistry 10 none 7 ["random", "boom"]
        exampleStore).2 = .error (.generationFailed "boom")) ∧
    run_models_post_state true true exampleRegistry 10 none 7 ["random", "boom"]
        exampleStore = exampleStore :=
  ⟨rfl, run_models_rollback_on_error true true exampleRegistry 10 none 7
    ["random", "boom"] exampleStore (.generationFailed "boom") rfl⟩

theorem run_models_loop_unknown (registry : String → Option GenFun)
    (top_n : Nat) (seed : Option Int) (now : Nat) :
    ∀ (pre : List String) (name : String) (post : List String) (store : Store),
      (∀ m ∈ pre, ∃ g out, registry m = some g ∧ g top_n seed = Except.ok out) →
      registry name = none →
      (run_models_loop registry top_n seed now (pre ++ name :: post) store).2
          = .error (.unknownModel name) ∧
      (run_models_loop registry top_n seed now (pre ++ name :: post) store).1 = pre := by
  intro pre
  induction pre with
  | nil =>
    intro name post store _ hname
    simp [run_models_loop, hname]
  | cons m pre ih =>
    intro name post store hpre hname
    obtain ⟨g, out, hg, hout⟩ := hpre m (List.mem_cons_self m pre)
    have hrest : ∀ x ∈ pre, ∃ g out, registry x = some g ∧ g top_n seed = Except.ok out :=
      fun x hx => hpre x (List.mem_cons_of_mem m hx)
    have ihx := ih name post
      (persist_recommendations now store m out).1 hrest hname
    simp only [List.cons_append, run_models_loop, hg, hout, List.append_eq]
    refine ⟨?_, ?_⟩
    · rw [ihx.1]
    · rw [ihx.2]

/-- **C7 (amended).** When the requested model list contains a name
absent from the registry — with every earlier model generating
successfully — the invocation fails with `UnknownModel` for that name
and nothing is persisted; however, the generation functions of the
models listed before the unknown name have already been invoked. -/
theorem run_models_unknown_model (registry : String → Option GenFun)
    (top_n : Nat) (seed : Option Int) (now : Nat) (pre : List String)
    (name : String) (post : List String) (store : Store)
    (hpre : ∀ m ∈ pre, ∃ g out, registry m = some g ∧ g top_n seed = Except.ok out)
    (hname : registry name = none) :
    (run_models true true registry top_n seed now (pre ++ name :: post) store).2
        = .error (.unknownModel name) ∧
    run_models_post_state true true registry top_n seed now (pre ++ name :: post)
        store = store ∧
    (run_models true true registry top_n seed now (pre ++ name :: post) store).1
        = pre := by
  have hloop := run_models_loop_unknown registry top_n seed now pre name post
    store hpre hname
  have h2 : (run_models true true registry top_n seed now (pre ++ name :: post)
      store).2 = .error (.unknownModel name) := by
    simpa [run_models] using hloop.1
  refine ⟨h2, ?_, ?_⟩
  · unfold run_models_post_state
    rw [h2]
  · simpa [run_models] using hloop.2

/-- Counterexample for C7 as frozen: with registry `exampleRegistry` and
request `["random", "nope"]`, the invocation is rejected with
`UnknownModel "nope"`, yet the generation function of `"random"` has
already been invoked (the trace is `["random"]`, not `[]`) — rejection
does not happen before all generation computation. -/
theorem run_models_unknown_model_counterexample :
    (run_models true true exampleRegistry 10 none 7 ["random", "nope"]
        exampleStore).2 = .error (.unknownModel "nope") ∧
    (run_models true true exampleRegistry 10 none 7 ["random", "nope"]
        exampleStore).1 = ["random"] :=
  ⟨rfl, rfl⟩

/-- Witness for the amended C7 at `pre = ["random"]`, unknown name
`"nope"`. -/
theorem run_models_unknown_model_witness :
    (∀ m ∈ (["random"] : List String),
      ∃ g out, exampleRegistry m = some g ∧ g 10 none = Except.ok out) ∧
    exampleRegistry "nope" = none ∧
    ((run_models true true exampleRegistry 10 none 7 (["random"] ++ "nope" :: [])
        exampleStore).2 = .error (.unknownModel "nope") ∧
      run_models_post_state true true exampleRegistry 10 none 7
        (["random"] ++ "nope" :: []) exampleStore = exampleStore ∧
      (run_models true true exampleRegistry 10 none 7 (["random"] ++ "nope" :: [])
        exampleStore).1 = ["random"]) := by
  have hpre : ∀ m ∈ (["random"] : List String),
      ∃ g out, exampleRegistry m = some g ∧ g 10 none = Except.ok out := by
    intro m hm
    have hm' : m = "random" := by simpa using hm
    subst hm'
    exact ⟨_, [("user_id#1", [5, 6])], rfl, rfl⟩
  exact ⟨hpre, rfl,
    run_models_unknown_model exampleRegistry 10 none 7 ["random"] "nope" []
      exampleStore hpre rfl⟩

/-! ## Upsert semantics of the recommendation store -/

/-- The uniqueness invariant enforced by `UNIQUE(target_key, model)`:
no two stored rows share a (target_key, model) pair. -/
def StoreKeysUnique (store : Store) : Prop :=
  store.Pairwise (fun a b => ¬(a.target_key = b.target_key ∧ a.model = b.model))

theorem rowKeyMatch_self (tk m its : String) (now : Nat) :
    rowKeyMatch tk m { target_key := tk, model := m, items := its, generated_at := now } = true := by
  simp [rowKeyMatch]

theorem rowKeyMatch_update (tk m its : String) (now : Nat) (q : RecRow) :
    rowKeyMatch tk m { q with items := its, generated_at := now }
      = rowKeyMatch tk m q := rfl

theorem filter_match_map_upsert (store : Store) (tk m its : String) (now : Nat) :
    (store.map (fun q => if rowKeyMatch tk m q then
        { q with items := its, generated_at := now } else q)).filter (rowKeyMatch tk m)
      = (store.filter (rowKeyMatch tk m)).map
          (fun q => { q with items := its, generated_at := now }) := by
  induction store with
  | nil => simp
  | cons q t ih =>
    by_cases hq : rowKeyMatch tk m q = true
    · have hq2 : rowKeyMatch tk m { q with items := its, generated_at := now } = true := hq
      simp [List.map_cons, List.filter_cons, if_pos hq, hq, hq2, ih]
    · simp only [List.map_cons, List.filter_cons, if_neg hq]
      have hq' : rowKeyMatch tk m q = false := by simpa using hq
      simp [hq', ih]

theorem filter_not_map_upsert (store : Store) (tk m its : String) (now : Nat) :
    (store.map (fun q => if rowKeyMatch tk m q then
        { q with items := its, generated_at := now } else q)).filter
          (fun q => !(rowKeyMatch tk m q))
      = store.filter (fun q => !(rowKeyMatch tk m q)) := by
  induction store with
  | nil => simp
  | cons q t ih =>
    by_cases hq : rowKeyMatch tk m q = true
    · have hq2 : rowKeyMatch tk m { q with items := its, generated_at := now } = true := hq
      simp [List.map_cons, List.filter_cons, if_pos hq, hq, hq2, ih]
    · simp only [List.map_cons, List.filter_cons, if_neg hq]
      have hq' : rowKeyMatch tk m q = false := by simpa using hq
      simp [hq', ih]

theorem rowKeyMatch_fields {tk m : String} {q : RecRow}
    (h : rowKeyMatch tk m q = true) : q.target_key = tk ∧ q.model = m := by
  have h' := h
  unfold rowKeyMatch at h'
  rw [Bool.and_eq_true] at h'
  exact ⟨by simpa using h'.1, by simpa using h'.2⟩

theorem filter_key_singleton (store : Store) (tk m : String)
    (hinv : StoreKeysUnique store)
    (hany : store.any (rowKeyMatch tk m) = true) :
    ∃ a, store.filter (rowKeyMatch tk m) = [a] ∧ rowKeyMatch tk m a = true := by
  have hne : store.filter (rowKeyMatch tk m) ≠ [] := by
    obtain ⟨a, ha, hma⟩ := List.any_eq_true.mp hany
    intro hnil
    have hmem : a ∈ store.filter (rowKeyMatch tk m) := List.mem_filter.mpr ⟨ha, hma⟩
    rw [hnil] at hmem
    exact absurd hmem (List.not_mem_nil a)
  have hpw : (store.filter (rowKeyMatch tk m)).Pairwise
      (fun a b => ¬(a.target_key = b.target_key ∧ a.model = b.model)) :=
    List.Pairwise.sublist (List.filter_sublist store) hinv
  cases hf : store.filter (rowKeyMatch tk m) with
  | nil => exact absurd hf hne
  | cons x t =>
    have hx : rowKeyMatch tk m x = true := by
      have hmem : x ∈ store.filter (rowKeyMatch tk m) := by
        rw [hf]; exact List.mem_cons_self x t
      exact (List.mem_filter.mp hmem).2
    cases t with
    | nil => exact ⟨x, rfl, hx⟩
    | cons y t2 =>
      exfalso
      have hy : rowKeyMatch tk m y = true := by
        have hmem : y ∈ store.filter (rowKeyMatch tk m) := by
          rw [hf]
          exact List.mem_cons_of_mem x (List.mem_cons_self y t2)
        exact (List.mem_filter.mp hmem).2
      rw [hf] at hpw
      have hR := (List.pairwise_cons.mp hpw).1 y (List.mem_cons_self y t2)
      have hxf := rowKeyMatch_fields hx
      have hyf := rowKeyMatch_fields hy
      exact hR ⟨hxf.1.trans hyf.1.symm, hxf.2.trans hyf.2.symm⟩

theorem upsertRow_pos (now : Nat) (store : Store) (tk m its : String)
    (h : store.any (rowKeyMatch tk m) = true) :
    upsertRow now store tk m its = store.map (fun q => if rowKeyMatch tk m q then
      { q with items := its, generated_at := now } else q) := by
  unfold upsertRow
  rw [if_pos h]

theorem upsertRow_neg (now : Nat) (store : Store) (tk m its : String)
    (h : ¬ store.any (rowKeyMatch tk m) = true) :
    upsertRow now store tk m its
      = store ++ [{ target_key := tk, model := m, items := its, generated_at := now }] := by
  unfold upsertRow
  rw [if_neg h]

theorem upsert_upsert_same_key (store : Store) (now1 now2 : Nat)
    (tk m i1 i2 : String) (hinv : StoreKeysUnique store) :
    (upsertRow now2 (upsertRow now1 store tk m i1) tk m i2).filter (rowKeyMatch tk m)
        = [{ target_key := tk, model := m, items := i2, generated_at := now2 }] ∧
    (upsertRow now2 (upsertRow now1 store tk m i1) tk m i2).filter
        (fun q => !(rowKeyMatch tk m q))
        = store.filter (fun q => !(rowKeyMatch tk m q)) := by
  by_cases hany : store.any (rowKeyMatch tk m) = true
  · obtain ⟨a, hfa, hma⟩ := filter_key_singleton store tk m hinv hany
    have haf := rowKeyMatch_fields hma
    have hs1 : upsertRow now1 store tk m i1
        = store.map (fun q => if rowKeyMatch tk m q then
            { q with items := i1, generated_at := now1 } else q) :=
      upsertRow_pos now1 store tk m i1 hany
    have hany1 : (upsertRow now1 store tk m i1).any (rowKeyMatch tk m) = true := by
      rw [hs1]
      apply List.any_eq_true.mpr
      obtain ⟨b, hb, hmb⟩ := List.any_eq_true.mp hany
      refine ⟨if rowKeyMatch tk m b then
        { b with items := i1, generated_at := now1 } else b, List.mem_map_of_mem _ hb, ?_⟩
      rw [if_pos hmb, rowKeyMatch_update]
      exact hmb
    have hs2 : upsertRow now2 (upsertRow now1 store tk m i1) tk m i2
        = (upsertRow now1 store tk m i1).map (fun q => if rowKeyMatch tk m q then
            { q with items := i2, generated_at := now2 } else q) :=
      upsertRow_pos now2 (upsertRow now1 store tk m i1) tk m i2 hany1
    constructor
    · rw [hs2, filter_match_map_upsert, hs1, filter_match_map_upsert, hfa]
      simp only [List.map_cons, List.map_nil]
      rw [haf.1, haf.2]
    · rw [hs2, filter_not_map_upsert, hs1, filter_not_map_upsert]
  · have hs1 : upsertRow now1 store tk m i1
        = store ++ [{ target_key := tk, model := m, items := i1, generated_at := now1 }] :=
      upsertRow_neg now1 store tk m i1 hany
    have hany1 : (upsertRow now1 store tk m i1).any (rowKeyMatch tk m) = true := by
      rw [hs1]
      apply List.any_eq_true.mpr
      refine ⟨_, List.mem_append_right store (List.mem_cons_self _ []), ?_⟩
      exact rowKeyMatch_self tk m i1 now1
    have hs2 : upsertRow now2 (upsertRow now1 store tk m i1) tk m i2
        = (upsertRow now1 store tk m i1).map (fun q => if rowKeyMatch tk m q then
            { q with items := i2, generated_at := now2 } else q) :=
      upsertRow_pos now2 (upsertRow now1 store tk m i1) tk m i2 hany1
    have hfilnil : store.filter (rowKeyMatch tk m) = [] := by
      apply List.filter_eq_nil_iff.mpr
      intro a ha
      intro hma
      exact hany (List.any_eq_true.mpr ⟨a, ha, hma⟩)
    constructor
    · rw [hs2, filter_match_map_upsert, hs1, List.filter_append, hfilnil]
      simp [rowKeyMatch_self]
    · rw [hs2, filter_not_map_upsert, hs1, List.filter_append]
      simp [rowKeyMatch_self]

/-- **C4.** Two successive persists of the same (target_key, model) pair
leave exactly one stored row for that pair, carrying the serialized item
list and timestamp of the second write; every row keyed by a different
pair is unchanged. -/
theorem persist_same_pair_twice (store : Store) (now1 now2 : Nat)
    (tk m : String) (l1 l2 : List Int) (hinv : StoreKeysUnique store) :
    ((persist_recommendations now2
        (persist_recommendations now1 store m [(tk, l1)]).1 m [(tk, l2)]).1.filter
          (rowKeyMatch tk m)
        = [{ target_key := tk, model := m, items := serialize_items l2,
             generated_at := now2 }]) ∧
    ((persist_recommendations now2
        (persist_recommendations now1 store m [(tk, l1)]).1 m [(tk, l2)]).1.filter
          (fun q => !(rowKeyMatch tk m q))
        = store.filter (fun q => !(rowKeyMatch tk m q))) := by
  have hp : ∀ (now : Nat) (st : Store) (l : List Int),
      (persist_recommendations now st m [(tk, l)]).1
        = upsertRow now st tk m (serialize_items l) := by
    intro now st l
    rfl
  rw [hp, hp]
  exact upsert_upsert_same_key store now1 now2 tk m (serialize_items l1)
    (serialize_items l2) hinv

/-- Witness for C4 on a concrete store holding one row for a different
model of the same target and one row for another target. -/
theorem persist_same_pair_twice_witness :
    StoreKeysUnique
      [{ target_key := "user_id#1", model := "item_similarity", items := "[9]",
         generated_at := 1 },
       { target_key := "user_id#2", model := "random", items := "[8]",
         generated_at := 1 }] ∧
    ((persist_recommendations 5
        (persist_recommendations 3
          [{ target_key := "user_id#1", model := "item_similarity", items := "[9]",
             generated_at := 1 },
           { target_key := "user_id#2", model := "random", items := "[8]",
             generated_at := 1 }] "random" [("user_id#1", [1, 2])]).1
        "random" [("user_id#1", [3, 4])]).1.filter (rowKeyMatch "user_id#1" "random")
        = [{ target_key := "user_id#1", model := "random", items := serialize_items [3, 4],
             generated_at := 5 }]) ∧
    ((persist_recommendations 5
        (persist_recommendations 3
          [{ target_key := "user_id#1", model := "item_similarity", items := "[9]",
             generated_at := 1 },
           { target_key := "user_id#2", model := "random", items := "[8]",
             generated_at := 1 }] "random" [("user_id#1", [1, 2])]).1
        "random" [("user_id#1", [3, 4])]).1.filter
          (fun q => !(rowKeyMatch "user_id#1" "random" q))
        = [{ target_key := "user_id#1", model := "item_similarity", items := "[9]",
             generated_at := 1 },
           { target_key := "user_id#2", model := "random", items := "[8]",
             generated_at := 1 }].filter
          (fun q => !(rowKeyMatch "user_id#1" "random" q))) := by
  refine ⟨?_, ?_⟩
  · unfold StoreKeysUnique
    simp
  · exact persist_same_pair_twice
      [{ target_key := "user_id#1", model := "item_similarity", items := "[9]",
         generated_at := 1 },
       { target_key := "user_id#2", model := "random", items := "[8]",
         generated_at := 1 }] 3 5 "user_id#1" "random" [1, 2] [3, 4]
      (by unfold StoreKeysUnique; simp)

/-! ## Target-selection and error behaviour of the read API -/

/-- Counterexample for C1 as frozen: a request supplying BOTH `user_id`
and `item_id` (for an existing user 1 and existing item 2) is not
rejected with a 400 — it succeeds, resolving the user target and
silently ignoring `item_id`. -/
theorem api_both_ids_not_rejected :
    list_recommendations [1] [2]
      [{ target_key := "user_id#1", model := "random", items := "[5, 6]", generated_at := 3 }]
      (some 1) (some 2) none 10
      = .ok { target_type := "user", target_id := 1, target_key := "user_id#1",
              model := none, limit := 10,
              recommendations := [{ model := "random", items := [5, 6], generated_at := 3 }] } := by
  rfl

/-- **C1 (amended).** The fetch operation rejects with
`InvalidRequest` (HTTP 400) exactly when NEITHER `user_id` nor `item_id`
is supplied — before consulting the store (the rejection holds for every
store).  When both are supplied, `user_id` takes precedence and
`item_id` is ignored, rather than the request being rejected. -/
theorem api_target_selection (users items_table : List Int) (store : Store)
    (modelFilter : Option String) (limit : Nat) :
    (list_recommendations users items_table store none none modelFilter limit
        = .error (.invalidRequest "Provide either user_id or item_id")) ∧
    (ApiError.invalidRequest "Provide either user_id or item_id").status = 400 ∧
    ∀ (uid iid : Int),
      list_recommendations users items_table store (some uid) (some iid)
          modelFilter limit
        = list_recommendations users items_table store (some uid) none
            modelFilter limit :=
  ⟨rfl, rfl, fun _ _ => rfl⟩

/-- **C8.** An id absent from the entity table fails with `NotFound`
(404); an existing id whose target has no stored row matching the model
filter fails with the distinct `NoRecommendations` error (also 404). -/
theorem api_not_found_vs_no_recommendations (users items_table : List Int)
    (store : Store) (modelFilter : Option String) (limit : Nat) (uid iid : Int) :
    (uid ∉ users →
      list_recommendations users items_table store (some uid) none modelFilter limit
        = .error (.notFound "User not found")) ∧
    (iid ∉ items_table →
      list_recommendations users items_table store none (some iid) modelFilter limit
        = .error (.notFound "Item not found")) ∧
    (uid ∈ users → store.filter (row_matches (userKey uid) modelFilter) = [] →
      list_recommendations users items_table store (some uid) none modelFilter limit
        = .error .noRecommendations) ∧
    (iid ∈ items_table → store.filter (row_matches (itemKey iid) modelFilter) = [] →
      list_recommendations users items_table store none (some iid) modelFilter limit
        = .error .noRecommendations) ∧
    (∀ d, ApiError.notFound d ≠ ApiError.noRecommendations) ∧
    (∀ d, (ApiError.notFound d).status = 404) ∧
    ApiError.noRecommendations.status = 404 := by
  refine ⟨?_, ?_, ?_, ?_, ?_, fun d => rfl, rfl⟩
  · intro h
    simp [list_recommendations, h]
  · intro h
    simp [list_recommendations, h]
  · intro h hf
    simp [list_recommendations, h, serveTarget, sortRowsByModel, hf]
  · intro h hf
    simp [list_recommendations, h, serveTarget, sortRowsByModel, hf]
  · intro d hcon
    exact ApiError.noConfusion hcon

/-- Witness for C8: user 9 is unknown (`NotFound`), item 7 is unknown
(`NotFound`), and both user 1 and item 2 exist but have no stored rows
(`NoRecommendations`). -/
theorem api_not_found_vs_no_recommendations_witness :
    ((9 : Int) ∉ ([1] : List Int) ∧
      list_recommendations [1] [2] [] (some 9) none none 10
        = .error (.notFound "User not found")) ∧
    ((7 : Int) ∉ ([2] : List Int) ∧
      list_recommendations [1] [2] [] none (some 7) none 10
        = .error (.notFound "Item not found")) ∧
    ((1 : Int) ∈ ([1] : List Int) ∧
      ([] : Store).filter (row_matches (userKey 1) none) = [] ∧
      list_recommendations [1] [2] [] (some 1) none none 10
        = .error .noRecommendations) ∧
    ((2 : Int) ∈ ([2] : List Int) ∧
      ([] : Store).filter (row_matches (itemKey 2) none) = [] ∧
      list_recommendations [1] [2] [] none (some 2) none 10
        = .error .noRecommendations) := by
  refine ⟨⟨by decide, ?_⟩, ⟨by decide, ?_⟩, ⟨by decide, rfl, ?_⟩, ⟨by decide, rfl, ?_⟩⟩
  · exact (api_not_found_vs_no_recommendations [1] [2] [] none 10 9 7).1 (by decide)
  · exact (api_not_found_vs_no_recommendations [1] [2] [] none 10 9 7).2.1 (by decide)
  · exact (api_not_found_vs_no_recommendations [1] [2] [] none 10 1 2).2.2.1
      (by decide) rfl
  · exact (api_not_found_vs_no_recommendations [1] [2] [] none 10 1 2).2.2.2.1
      (by decide) rfl

/-! ## Read-time truncation and ordering (`list_recommendations`) -/

theorem charListLe_total : ∀ l1 l2 : List Char,
    charListLe l1 l2 = true ∨ charListLe l2 l1 = true := by
  intro l1
  induction l1 with
  | nil => intro l2; left; rfl
  | cons c cs ih =>
    intro l2
    cases l2 with
    | nil => right; rfl
    | cons d ds =>
      by_cases h1 : c.toNat < d.toNat
      · left
        simp [charListLe, h1]
      · by_cases h2 : d.toNat < c.toNat
        · right
          simp [charListLe, h2]
        · cases ih ds with
          | inl h => left; simp [charListLe, h1, h2, h]
          | inr h => right; simp [charListLe, h1, h2, h]

theorem charListLe_trans : ∀ l1 l2 l3 : List Char,
    charListLe l1 l2 = true → charListLe l2 l3 = true →
    charListLe l1 l3 = true := by
  intro l1
  induction l1 with
  | nil => intro l2 l3 _ _; rfl
  | cons c cs ih =>
    intro l2 l3 h12 h23
    cases l2 with
    | nil => simp [charListLe] at h12
    | cons d ds =>
      cases l3 with
      | nil => simp [charListLe] at h23
      | cons e es =>
        simp only [charListLe] at h12 h23 ⊢
        by_cases hcd : c.toNat < d.toNat
        · by_cases hde : d.toNat < e.toNat
          · simp [show c.toNat < e.toNat by omega]
          · by_cases hed : e.toNat < d.toNat
            · simp [hde, hed] at h23
            · simp [show c.toNat < e.toNat by omega]
        · by_cases hdc : d.toNat < c.toNat
          · simp [hcd, hdc] at h12
          · by_cases hde : d.toNat < e.toNat
            · simp [show c.toNat < e.toNat by omega]
            · by_cases hed : e.toNat < d.toNat
              · simp [hde, hed] at h23
              · simp only [hcd, hdc, if_neg, reduceIte] at h12
                simp only [hde, hed, if_neg, reduceIte] at h23
                have hce : ¬ c.toNat < e.toNat := by omega
                have hec : ¬ e.toNat < c.toNat := by omega
                simp only [hce, hec, if_neg, reduceIte]
                exact ih ds es h12 h23

instance : IsTotal RecRow (fun a b => stringLe a.model b.model = true) :=
  ⟨fun a b => charListLe_total a.model.data b.model.data⟩

instance : IsTrans RecRow (fun a b => stringLe a.model b.model = true) :=
  ⟨fun a b c => charListLe_trans a.model.data b.model.data c.model.data⟩

theorem build_entries_ok (limit : Nat) :
    ∀ (rows : List RecRow) (es : List ApiEntry),
      build_entries limit rows = .ok es →
      List.Forall₂ (fun q e => ∃ l, parseItems q.items = some l ∧
        e.model = q.model ∧ e.generated_at = q.generated_at ∧
        e.items = l.take limit) rows es := by
  intro rows
  induction rows with
  | nil =>
    intro es h
    simp only [build_entries] at h
    cases h
    exact List.Forall₂.nil
  | cons q rest ih =>
    intro es h
    simp only [build_entries] at h
    cases hp : parseItems q.items with
    | none =>
      rw [hp] at h
      cases h
    | some l =>
      rw [hp] at h
      cases hb : build_entries limit rest with
      | error e =>
        rw [hb] at h
        cases h
      | ok es' =>
        rw [hb] at h
        cases h
        exact List.Forall₂.cons ⟨l, hp, rfl, rfl, rfl⟩ (ih es' hb)

theorem forall₂_exists_left {α β : Type} {R : α → β → Prop}
    {l1 : List α} {l2 : List β} (h : List.Forall₂ R l1 l2) :
    ∀ b ∈ l2, ∃ a ∈ l1, R a b := by
  induction h with
  | nil => simp
  | cons hR _ ih =>
    intro b hb
    cases List.mem_cons.mp hb with
    | inl he =>
      subst he
      exact ⟨_, List.mem_cons_self _ _, hR⟩
    | inr hr =>
      obtain ⟨a, ha, hab⟩ := ih b hr
      exact ⟨a, List.mem_cons_of_mem _ ha, hab⟩

theorem forall₂_map_model {rows : List RecRow} {es : List ApiEntry} {limit : Nat}
    (h : List.Forall₂ (fun q e => ∃ l, parseItems q.items = some l ∧
      e.model = q.model ∧ e.generated_at = q.generated_at ∧
      e.items = l.take limit) rows es) :
    es.map ApiEntry.model = rows.map RecRow.model := by
  induction h with
  | nil => rfl
  | cons hR _ ih =>
    obtain ⟨l, _, hm, _, _⟩ := hR
    simp only [List.map_cons, ih, hm]

theorem serveTarget_ok_spec (store : Store) (mf : Option String) (lim : Nat)
    (tt : String) (tid : Int) (tk : String) (res : ApiResponse)
    (h : serveTarget store mf lim tt tid tk = .ok res) :
    res.target_key = tk ∧ res.model = mf ∧ res.limit = lim ∧
    (∀ e ∈ res.recommendations, ∃ q, q ∈ store ∧ row_matches tk mf q = true ∧
      ∃ l, parseItems q.items = some l ∧ e.model = q.model ∧
        e.generated_at = q.generated_at ∧ e.items = l.take lim) ∧
    List.Pairwise (fun a b => stringLe a b = true)
      (res.recommendations.map ApiEntry.model) := by
  unfold serveTarget at h
  by_cases hrows : sortRowsByModel (store.filter (row_matches tk mf)) = []
  · rw [if_pos hrows] at h
    cases h
  · rw [if_neg hrows] at h
    cases hb : build_entries lim (sortRowsByModel (store.filter (row_matches tk mf))) with
    | error e =>
      rw [hb] at h
      cases h
    | ok entries =>
      rw [hb] at h
      cases h
      have hF := build_entries_ok lim _ entries hb
      have hsorted : List.Pairwise (fun a b : RecRow => stringLe a.model b.model = true)
          (sortRowsByModel (store.filter (row_matches tk mf))) :=
        List.sorted_insertionSort
          (fun a b : RecRow => stringLe a.model b.model = true)
          (store.filter (row_matches tk mf))
      refine ⟨rfl, rfl, rfl, ?_, ?_⟩
      · intro e he
        obtain ⟨q, hq, hrel⟩ := forall₂_exists_left hF e he
        have hq' : q ∈ store.filter (row_matches tk mf) := by
          have hmem : q ∈ sortRowsByModel (store.filter (row_matches tk mf)) := hq
          unfold sortRowsByModel at hmem
          exact (List.mem_insertionSort _).mp hmem
        have hq'' := List.mem_filter.mp hq'
        exact ⟨q, hq''.1, hq''.2, hrel⟩
      · rw [forall₂_map_model hF]
        exact List.Pairwise.map RecRow.model (fun a b hab => hab) hsorted

/-- **C9.** On every successful fetch, each returned entry carries the
first `limit` elements of the parsed stored item list of a matching
stored row (model name and generation timestamp preserved), and the
returned entries are ordered ascending by model name. -/
theorem api_read_truncation_and_order (users items_table : List Int)
    (store : Store) (user_id item_id : Option Int) (mf : Option String)
    (lim : Nat) (res : ApiResponse)
    (h : list_recommendations users items_table store user_id item_id mf lim
      = .ok res) :
    (∀ e ∈ res.recommendations, ∃ q, q ∈ store ∧
      row_matches res.target_key mf q = true ∧
      ∃ l, parseItems q.items = some l ∧ e.model = q.model ∧
        e.generated_at = q.generated_at ∧ e.items = l.take lim) ∧
    List.Pairwise (fun a b => stringLe a b = true)
      (res.recommendations.map ApiEntry.model) := by
  unfold list_recommendations at h
  by_cases hboth : (user_id.isNone && item_id.isNone) = true
  · rw [if_pos hboth] at h
    cases h
  · rw [if_neg hboth] at h
    cases user_id with
    | some uid =>
      dsimp only at h
      by_cases hu : uid ∈ users
      · rw [if_pos hu] at h
        have hs := serveTarget_ok_spec store mf lim "user" uid (userKey uid) res h
        rw [hs.1]
        exact ⟨hs.2.2.2.1, hs.2.2.2.2⟩
      · rw [if_neg hu] at h
        cases h
    | none =>
      cases item_id with
      | some iid =>
        dsimp only at h
        by_cases hi : iid ∈ items_table
        · rw [if_pos hi] at h
          have hs := serveTarget_ok_spec store mf lim "item" iid (itemKey iid) res h
          rw [hs.1]
          exact ⟨hs.2.2.2.1, hs.2.2.2.2⟩
        · rw [if_neg hi] at h
          cases h
      | none =>
        dsimp only at h
        cases h

/-- Witness for C9: a fetch with `limit = 1` against a store holding
10-element and 2-element lists for two models of the same user. -/
theorem api_read_truncation_and_order_witness :
    (list_recommendations [1] [2]
      [{ target_key := "user_id#1", model := "random", items := "[5, 6]", generated_at := 3 },
       { target_key := "user_id#1", model := "item_similarity", items := "[7, 8]", generated_at := 2 }]
      (some 1) none none 1
      = .ok { target_type := "user", target_id := 1, target_key := "user_id#1",
              model := none, limit := 1,
              recommendations := [{ model := "item_similarity", items := [7], generated_at := 2 },
                { model := "random", items := [5], generated_at := 3 }] }) ∧
    ((∀ e ∈ [({ model := "item_similarity", items := [7], generated_at := 2 } : ApiEntry),
        { model := "random", items := [5], generated_at := 3 }],
      ∃ q, q ∈ [({ target_key := "user_id#1", model := "random", items := "[5, 6]", generated_at := 3 } : RecRow),
          { target_key := "user_id#1", model := "item_similarity", items := "[7, 8]", generated_at := 2 }] ∧
        row_matches "user_id#1" none q = true ∧
        ∃ l, parseItems q.items = some l ∧ e.model = q.model ∧
          e.generated_at = q.generated_at ∧ e.items = l.take 1) ∧
    List.Pairwise (fun a b => stringLe a b = true)
      (([({ model := "item_similarity", items := [7], generated_at := 2 } : ApiEntry),
        { model := "random", items := [5], generated_at := 3 }]).map ApiEntry.model)) := by
  refine ⟨rfl, ?_⟩
  exact api_read_truncation_and_order [1] [2]
    [{ target_key := "user_id#1", model := "random", items := "[5, 6]", generated_at := 3 },
     { target_key := "user_id#1", model := "item_similarity", items := "[7, 8]", generated_at := 2 }]
    (some 1) none none 1
    { target_type := "user", target_id := 1, target_key := "user_id#1",
      model := none, limit := 1,
      recommendations := [{ model := "item_similarity", items := [7], generated_at := 2 },
        { model := "random", items := [5], generated_at := 3 }] }
    rfl

/-! ## The similarity engine respects the top-N contract -/

theorem walkShortlist_not_self (item_ids : List Int) (self_id : Int)
    (top_n : Nat) :
    ∀ (l : List Nat) (acc : List Int), self_id ∉ acc →
      self_id ∉ walkShortlist item_ids self_id top_n acc l := by
  intro l
  induction l with
  | nil =>
    intro acc h
    simpa [walkShortlist] using h
  | cons idx rest ih =>
    intro acc hacc
    simp only [walkShortlist]
    by_cases hc : item_ids.getD idx 0 = self_id
    · rw [if_pos hc]
      exact ih acc hacc
    · rw [if_neg hc]
      have hacc' : self_id ∉ (item_ids.getD idx 0 :: acc) := by
        intro hmem
        cases List.mem_cons.mp hmem with
        | inl he => exact hc he.symm
        | inr hi => exact hacc hi
      by_cases hstop : top_n ≤ acc.length + 1
      · rw [if_pos hstop]
        simp only [List.mem_reverse]
        exact hacc'
      · rw [if_neg hstop]
        exact ih _ hacc'

theorem walkShortlist_length_le (item_ids : List Int) (self_id : Int)
    (top_n : Nat) :
    ∀ (l : List Nat) (acc : List Int), acc.length < top_n →
      (walkShortlist item_ids self_id top_n acc l).length ≤ top_n := by
  intro l
  induction l with
  | nil =>
    intro acc h
    simp only [walkShortlist, List.length_reverse]
    omega
  | cons idx rest ih =>
    intro acc hacc
    simp only [walkShortlist]
    by_cases hc : item_ids.getD idx 0 = self_id
    · rw [if_pos hc]
      exact ih acc hacc
    · rw [if_neg hc]
      by_cases hstop : top_n ≤ acc.length + 1
      · rw [if_pos hstop]
        simp only [List.length_reverse, List.length_cons]
        omega
      · rw [if_neg hstop]
        exact ih _ (by simp only [List.length_cons]; omega)

theorem walkShortlist_length_le_filter (item_ids : List Int) (self_id : Int)
    (top_n : Nat) :
    ∀ (l : List Nat) (acc : List Int),
      (walkShortlist item_ids self_id top_n acc l).length ≤
        acc.length + (l.filter (fun i => item_ids.getD i 0 ≠ self_id)).length := by
  intro l
  induction l with
  | nil =>
    intro acc
    simp [walkShortlist]
  | cons idx rest ih =>
    intro acc
    simp only [walkShortlist]
    by_cases hc : item_ids.getD idx 0 = self_id
    · rw [if_pos hc]
      have hpf : (decide (item_ids.getD idx 0 ≠ self_id)) = false :=
        decide_eq_false (fun h => h hc)
      simp only [List.filter_cons, hpf, Bool.false_eq_true, reduceIte]
      exact ih acc
    · rw [if_neg hc]
      have hpt : (decide (item_ids.getD idx 0 ≠ self_id)) = true :=
        decide_eq_true hc
      simp only [List.filter_cons, hpt, reduceIte, List.length_cons]
      by_cases hstop : top_n ≤ acc.length + 1
      · rw [if_pos hstop]
        simp only [List.length_reverse, List.length_cons]
        omega
      · rw [if_neg hstop]
        have := ih (item_ids.getD idx 0 :: acc)
        simp only [List.length_cons] at this
        omega

theorem length_filter_lt_of_mem {α : Type} (p : α → Bool) {l : List α} {a : α}
    (ha : a ∈ l) (hpa : p a = false) : (l.filter p).length < l.length := by
  induction l with
  | nil => cases ha
  | cons x xs ih =>
    cases List.mem_cons.mp ha with
    | inl he =>
      subst he
      simp only [List.filter_cons, hpa, Bool.false_eq_true, reduceIte,
        List.length_cons]
      have := List.length_filter_le p xs
      omega
    | inr hm =>
      simp only [List.filter_cons]
      cases hx : p x
      · simp only [Bool.false_eq_true, reduceIte, List.length_cons]
        have := ih hm
        omega
      · simp only [reduceIte, List.length_cons]
        have := ih hm
        omega

theorem topIndices_nodup (scores : List ℚ) (c : Nat) :
    (topIndices scores c).Nodup := by
  unfold topIndices
  apply List.Nodup.sublist (List.take_sublist _ _)
  exact (List.perm_insertionSort _ _).nodup_iff.mpr (List.nodup_range _)

theorem topIndices_eq_full (scores : List ℚ) (c : Nat)
    (hc : scores.length ≤ c) :
    topIndices scores c
      = List.insertionSort (fun i j => scores.getD j 0 ≤ scores.getD i 0)
          (List.range scores.length) := by
  unfold topIndices
  apply List.take_of_length_le
  simp [hc]

/-- One row of the similarity engine: the result never contains the
row's own item id, never exceeds `top_n` entries, and never exceeds the
number of other items. -/
theorem top_n_similar_row_spec (scores : List ℚ) (item_ids : List Int)
    (idx top_n : Nat) (hnd : item_ids.Nodup) (hn : 2 ≤ item_ids.length)
    (ht : 1 ≤ top_n) (hsc : scores.length = item_ids.length)
    (hidx : idx < item_ids.length) :
    item_ids.getD idx 0 ∉ top_n_similar_row scores item_ids idx top_n ∧
    (top_n_similar_row scores item_ids idx top_n).length ≤ top_n ∧
    (top_n_similar_row scores item_ids idx top_n).length
      ≤ item_ids.length - 1 := by
  have hne : ¬ item_ids.length ≤ 1 := by omega
  unfold top_n_similar_row
  rw [if_neg hne]
  refine ⟨walkShortlist_not_self _ _ _ _ [] (by simp), ?_, ?_⟩
  · exact walkShortlist_length_le _ _ _ _ [] (by simpa using ht)
  · by_cases hcase : item_ids.length ≤ top_n + 1
    · have hcfull : scores.length ≤ min (top_n + 1) item_ids.length := by omega
      have hfull := topIndices_eq_full scores (min (top_n + 1) item_ids.length) hcfull
      have hperm : (topIndices scores (min (top_n + 1) item_ids.length)).Perm
          (List.range item_ids.length) := by
        rw [hfull, ← hsc]
        exact List.perm_insertionSort _ _
      have hmemidx : idx ∈ topIndices scores (min (top_n + 1) item_ids.length) :=
        hperm.mem_iff.mpr (List.mem_range.mpr hidx)
      have hpfalse : (decide (item_ids.getD idx 0 ≠ item_ids.getD idx 0)) = false :=
        decide_eq_false (fun h => h rfl)
      have hflt := length_filter_lt_of_mem
        (fun i => decide (item_ids.getD i 0 ≠ item_ids.getD idx 0)) hmemidx hpfalse
      have hfle := hperm.length_eq
      have hW3 := walkShortlist_length_le_filter item_ids (item_ids.getD idx 0)
        top_n (topIndices scores (min (top_n + 1) item_ids.length)) []
      simp only [List.length_nil, Nat.zero_add] at hW3
      rw [List.length_range] at hfle
      omega
    · have hW2 := walkShortlist_length_le item_ids (item_ids.getD idx 0) top_n
        (topIndices scores (min (top_n + 1) item_ids.length)) [] (by simpa using ht)
      omega

/-- **C3.** Whenever the shape-checked similarity selection succeeds on
a duplicate-free item set of size ≥ 2 with `top_n ≥ 1`, the entry for
the item at every index `idx` is keyed by that item and its list avoids
the item itself, has at most `top_n` elements, and has at most
(number of other items) elements. -/
theorem item_similarity_output_contract (similarity_matrix : List (List ℚ))
    (item_ids : List Int) (top_n : Nat) (res : List (String × List Int))
    (hnd : item_ids.Nodup) (hn : 2 ≤ item_ids.length) (ht : 1 ≤ top_n)
    (hok : top_n_similar similarity_matrix item_ids top_n = .ok res)
    (idx : Nat) (hidx : idx < item_ids.length) :
    (res.getD idx ("", [])).1 = itemKey (item_ids.getD idx 0) ∧
    item_ids.getD idx 0 ∉ (res.getD idx ("", [])).2 ∧
    (res.getD idx ("", [])).2.length ≤ top_n ∧
    (res.getD idx ("", [])).2.length ≤ item_ids.length - 1 := by
  unfold top_n_similar at hok
  by_cases hsh : (similarity_matrix.length == item_ids.length
      && similarity_matrix.all (fun row => row.length == item_ids.length)) = true
  · rw [if_pos hsh] at hok
    cases hok
    have hml : similarity_matrix.length = item_ids.length := by
      have := (Bool.and_eq_true _ _).mp hsh
      exact Nat.beq_eq_true_eq _ _ ▸ (by simpa using this.1)
    have hrow : (similarity_matrix.getD idx []).length = item_ids.length := by
      have hall := (Bool.and_eq_true _ _).mp hsh
      have hidx' : idx < similarity_matrix.length := by omega
      have hmem : similarity_matrix.getD idx [] ∈ similarity_matrix := by
        rw [List.getD_eq_getElem _ _ hidx']
        exact List.getElem_mem hidx'
      have := List.all_eq_true.mp hall.2 _ hmem
      simpa using this
    have hgd : ∀ (f : Nat → String × List Int),
        ((List.range item_ids.length).map f).getD idx ("", []) = f idx := by
      intro f
      have hlt : idx < ((List.range item_ids.length).map f).length := by
        simpa using hidx
      rw [List.getD_eq_getElem _ _ hlt]
      simp [hidx]
    rw [hgd]
    have hspec := top_n_similar_row_spec (similarity_matrix.getD idx [])
      item_ids idx top_n hnd hn ht hrow hidx
    exact ⟨rfl, hspec.1, hspec.2.1, hspec.2.2⟩
  · rw [if_neg hsh] at hok
    cases hok

/-- Witness for C3 on a 3-item set with a 0/1 similarity matrix and
`top_n = 1`, at index 0. -/
theorem item_similarity_output_contract_witness :
    (([1, 2, 3] : List Int).Nodup ∧ 2 ≤ ([1, 2, 3] : List Int).length ∧ 1 ≤ 1 ∧
      top_n_similar [[1, 1, 0], [1, 1, 0], [0, 0, 1]] [1, 2, 3] 1
        = .ok [("item_id#1", [2]), ("item_id#2", [1]), ("item_id#3", [1])] ∧
      0 < ([1, 2, 3] : List Int).length) ∧
    (([("item_id#1", [2]), ("item_id#2", [1]),
        ("item_id#3", [1])].getD 0 ("", [])).1
      = itemKey (([1, 2, 3] : List Int).getD 0 0) ∧
    ([1, 2, 3] : List Int).getD 0 0
      ∉ ([("item_id#1", [2]), ("item_id#2", [1]),
          ("item_id#3", [1])].getD 0 ("", [])).2 ∧
    ([("item_id#1", [2]), ("item_id#2", [1]),
        ("item_id#3", [1])].getD 0 ("", [])).2.length ≤ 1 ∧
    ([("item_id#1", [2]), ("item_id#2", [1]),
        ("item_id#3", [1])].getD 0 ("", [])).2.length
      ≤ ([1, 2, 3] : List Int).length - 1) := by
  refine ⟨⟨by decide, by decide, by decide, by rfl, by decide⟩, ?_⟩
  exact item_similarity_output_contract [[1, 1, 0], [1, 1, 0], [0, 0, 1]]
    [1, 2, 3] 1 [("item_id#1", [2]), ("item_id#2", [1]), ("item_id#3", [1])]
    (by decide) (by decide) (by decide) (by rfl) 0 (by decide)

/-- **C10.** The item-similarity generation entry point deletes its seed
argument unread: its output is identical for every pair of seed values
(including `none`), over the same provider, cleaner, records, `top_n`,
model name and batch size. -/
theorem item_similarity_seed_independent
    (provider : String → Nat → List String → List (List ℚ))
    (cleaner : String → String) (records : List (Int × String))
    (top_n : Nat) (model_name : String) (batch_size : Nat)
    (s1 s2 : Option Int) :
    generate_item_similarity_recommendations provider cleaner records top_n
        model_name batch_size s1
      = generate_item_similarity_recommendations provider cleaner records top_n
          model_name batch_size s2 := rfl

end Recsys
